import Mathlib

/-!
Verification of the pocket-core proof keeper (`x/pocketcore/keeper/proof.go`):
the pseudorandom audit-index derivation, proof validation, and the claim /
invoice lifecycle, shallowly embedded in Lean.  Machine integers (`int64`) are
modelled as `Int`; every quantity handled by the functions below stays far
below `2^63`, so wrap-around never occurs and the unbounded model agrees with
the Go semantics.  Fallible external collaborators are modelled as `Option`
valued parameters, and a Go runtime panic is modelled by `GoResult.panic`.
-/

namespace Pocket

/-- Modelled from the spec: `pc.SessionHeader` (types package, not under
`src/`) — target chain identifier, application public key, and the block
height at which the session began. -/
structure SessionHeader where
  chain : String
  applicationPubKey : String
  sessionBlockHeight : Int
deriving DecidableEq

/-- Modelled from the spec: the `Token` carried by a relay proof; the keeper
only reads its `ClientPublicKey` field, validation itself is an external
collaborator. -/
structure Token where
  clientPublicKey : String
deriving DecidableEq

/-- Modelled from the spec: `pc.RelayProof` — the unit of work (leaf/cousin);
carries a `Token` and a `Signature` over its canonical hash string. -/
structure RelayProof where
  token : Token
  signature : String
deriving DecidableEq

/-- Modelled from the spec: `pc.MerkleProof` — an authentication path:
`index` is the leaf position being revealed, `hashSums` the sibling digests
from leaf to root. -/
structure MerkleProofObj where
  index : Int
  hashSums : List String
deriving DecidableEq

/-- Modelled from the spec: `pc.MsgProof` — the reveal message: a slice of
Merkle proofs plus the leaf and cousin relay records. -/
structure MsgProof where
  merkleProofs : List MerkleProofObj
  leaf : RelayProof
  cousin : RelayProof
deriving DecidableEq

/-- Modelled from the spec: `pc.MsgClaim` (ClaimRecord) —
`{fromAddress, sessionHeader, totalRelays, merkleRoot}`; its
`SessionBlockHeight` is the promoted field of the embedded session header. -/
structure MsgClaim where
  fromAddress : String
  sessionHeader : SessionHeader
  totalRelays : Int
  merkleRoot : String
deriving DecidableEq

/-- The promoted `SessionBlockHeight` field of `pc.MsgClaim`. -/
def MsgClaim.sessionBlockHeight (m : MsgClaim) : Int :=
  m.sessionHeader.sessionBlockHeight

/-- Modelled from the spec: `pc.StoredInvoice` — the settled, verified record
`{servicerAddress, sessionHeader, totalRelays, proofs}`. -/
structure StoredInvoice where
  servicerAddress : String
  sessionHeader : SessionHeader
  totalRelays : Int
  proofs : List RelayProof
deriving DecidableEq

/-- Modelled from the spec: `pc.Invoice` — a local work-cache entry: the
session header, the accumulated relay proofs and the running relay counter. -/
structure Invoice where
  sessionHeader : SessionHeader
  totalRelays : Int
  proofs : List RelayProof
deriving DecidableEq

/-!  ## The pseudorandom audit-index derivation (`GetPseudorandomIndex`)  -/

/-- `json.Marshal` applied to the Go struct

```
type pseudorandomGenerator struct {
    blockHash string
    header    string
}
```

Both fields are unexported (lower-case), and Go's `encoding/json` silently
ignores unexported struct fields, so the marshalled bytes are the constant
two-byte string `\x7b\x7d` (an empty JSON object) and the returned error is
`nil`, for every `blockHash` and `header`. -/
def jsonMarshalPseudorandomGenerator (_blockHash _header : String) : String :=
  "\x7b\x7d"

/-- `strconv.ParseInt(s, 16, 64)` on a string of hex digits, the digits given
by their numeric values (`0..15`).  All prefixes parsed by the keeper have at
most 15 hex digits, hence values below `16^15 = 2^60 < 2^63`, so the Go parse
never errors and never overflows `int64`. -/
def parseHex (ds : List Nat) : Int :=
  ds.foldl (fun (a : Int) (d : Nat) => 16 * a + (d : Int)) 0

/-- The descending loop `for i := 15; i > 0; i--` of `GetPseudorandomIndex`:
at each `i` it parses the first `i` hex characters as `maxValue`; at the first
(largest) `i` with `totalRelays >= maxValue` it returns the integer parsed
from the first `firstCharacter % i + 1` hex characters, and it returns `0`
when no `i` qualifies. -/
def prIndexLoop (proofsHash : List Nat) (totalRelays : Int) : Nat → Int
  | 0 => 0
  | i + 1 =>
    let maxValue := parseHex (proofsHash.take (i + 1))
    if maxValue ≤ totalRelays then
      let firstCharacter := parseHex (proofsHash.take 1)
      let selection := firstCharacter % ((i : Int) + 1) + 1
      parseHex (proofsHash.take selection.toNat)
    else
      prIndexLoop proofsHash totalRelays i

/-- `(k Keeper) GetPseudorandomIndex(ctx, totalRelays, header)`.

External inputs drawn from the context are passed as parameters:
`digest` models `pc.Hash` composed with `hex.EncodeToString` (modelled from
the spec — the hash primitive lives in the types package, not under `src/`),
returning the hex digits of the digest by numeric value; `blockHashAt` models
`hex.EncodeToString(proofContext.BlockHeader().GetLastBlockId().Hash)` as a
function of the proof height; `headerHashString` models
`header.HashString()`; `wp` and `freq` are the governance parameters
`ProofWaitingPeriod` and `SessionFrequency`.  The Go code slices the digest
string to its first 15 characters. -/
def GetPseudorandomIndex (digest : String → List Nat) (blockHashAt : Int → String)
    (headerHashString : SessionHeader → String) (wp freq : Int)
    (totalRelays : Int) (header : SessionHeader) : Int :=
  let proofHeight := header.sessionBlockHeight + wp * freq
  let r := jsonMarshalPseudorandomGenerator (blockHashAt proofHeight) (headerHashString header)
  let proofsHash := (digest r).take 15
  prIndexLoop proofsHash totalRelays 15

/-!  ## Ceiling of the base-2 logarithm  -/

/-- Structural helper for `ceilLog2Nat`; the first argument is fuel, always
called with fuel at least `n` so it never runs out. -/
def ceilLog2Aux : Nat → Nat → Nat
  | 0, _ => 0
  | fuel + 1, n => if n ≤ 1 then 0 else ceilLog2Aux fuel ((n + 1) / 2) + 1

/-- The exact mathematical `ceil(log2 n)` for `n ≥ 1` (equivalence with
Mathlib's `Nat.clog 2` is proved in `ceilLog2Nat_eq_clog`).  This is the
depth threshold the spec intends (§3's `MerkleProof` invariant, §4.2 check 2,
§8 depth invariant).  The code instead computes
`int(math.Ceil(math.Log2(float64(totalRelays))))` in `float64`: below about
`2^32` the float computation provably agrees with this exact value (the
distance of `log2 n` from the nearest integer exceeds any plausible rounding
error by many orders of magnitude), but at large in-range `int64` inputs it
undershoots — `float64(2^53+1)` rounds to `2^53`, where Go's `Log2`
special-cases the exact power and returns `53.0`, although the exact ceiling
is `54`.  That divergence between the code and this intended threshold is
recorded as a code bug by the failing-input theorems below; the float
computation itself is not shallowly embeddable. -/
def ceilLog2Nat (n : Nat) : Nat := ceilLog2Aux n n

/-- `ceilLog2Nat` on `Int`, the form used by `ValidateProof`'s depth check:
the exact, spec-intended value of the code's
`int(math.Ceil(math.Log2(float64(n))))` (see `ceilLog2Nat` for where the
code's `float64` computation deviates from it). -/
def ceilLog2 (n : Int) : Int := (ceilLog2Nat n.toNat : Int)

/-- Modelled from IEEE-754 / Go semantics: the value of the conversion
`float64(n)` for `0 < n < 2^63` — `n` is rounded to the nearest value
representable with a 53-bit significand, ties to even (the rounding performed
by the `float64(claimMsg.TotalRelays)` conversion inside the depth check of
`ValidateProof`).  The bit length of `n` is `ceil(log2 (n+1))`; when it is at
most 53 the value is exact, otherwise `n` is rounded to the nearest multiple
of `2^(bits-53)`, ties going to the even quotient. -/
def float64RoundInt (n : Nat) : Nat :=
  let bits := ceilLog2Nat (n + 1)
  if bits ≤ 53 then n
  else
    let step := 2 ^ (bits - 53)
    let q := n / step
    let r := n % step
    if 2 * r < step then q * step
    else if step < 2 * r then (q + 1) * step
    else if q % 2 = 0 then q * step
    else (q + 1) * step

/-!  ## Proof validation (`ValidateProof`)  -/

/-- The errors produced by `ValidateProof`: `NewInvalidProofsError`,
`NewInvalidMerkleVerifyError`, or an error of an external collaborator
(token validation / signature verification) surfaced unchanged. -/
inductive PError (E : Type) where
  | invalidProofs
  | invalidMerkleVerify
  | collab (e : E)
deriving DecidableEq

/-- Result of running a Go function that may panic. -/
inductive GoResult (α : Type) where
  | panic
  | ok (a : α)
deriving DecidableEq

/-- The external collaborators and context-derived inputs consumed by the
keeper, bundled: the digest primitive and block-hash/header-hash accessors
feeding `GetPseudorandomIndex`, the governance parameters, and the black-box
Merkle / token / signature primitives of `ValidateProof` (errors of type
`E`). -/
structure Env (E : Type) where
  digest : String → List Nat
  blockHashAt : Int → String
  headerHashString : SessionHeader → String
  wp : Int
  freq : Int
  merkleValidate : String → RelayProof → RelayProof → List MerkleProofObj → Int → Bool
  tokenValidate : Token → Option E
  sigVerify : String → String → String → Option E
  leafHashString : RelayProof → String

/-- The pseudorandom index recomputed by `ValidateProof` from the claim
message: `k.GetPseudorandomIndex(ctx, claimMsg.TotalRelays,
claimMsg.SessionHeader)`. -/
def reqIndex {E : Type} (env : Env E) (c : MsgClaim) : Int :=
  GetPseudorandomIndex env.digest env.blockHashAt env.headerHashString
    env.wp env.freq c.totalRelays c.sessionHeader

/-- `(k Keeper) ValidateProof(ctx, claimMsg, proofMsg)`.  The Go code indexes
`proofMsg.MerkleProofs[0]` without a length check; on an empty slice that is
an out-of-bounds access, i.e. a runtime panic, modelled by
`GoResult.panic`. -/
def ValidateProof {E : Type} (env : Env E) (claimMsg : MsgClaim) (proofMsg : MsgProof) :
    GoResult (Option (PError E)) :=
  match proofMsg.merkleProofs with
  | [] => GoResult.panic
  | mp0 :: _ =>
    if reqIndex env claimMsg ≠ mp0.index then
      GoResult.ok (some PError.invalidProofs)
    else if (mp0.hashSums.length : Int) ≠ ceilLog2 claimMsg.totalRelays then
      GoResult.ok (some PError.invalidProofs)
    else if ¬ (env.merkleValidate claimMsg.merkleRoot proofMsg.leaf proofMsg.cousin
        proofMsg.merkleProofs claimMsg.totalRelays = true) then
      GoResult.ok (some PError.invalidMerkleVerify)
    else
      match env.tokenValidate proofMsg.leaf.token with
      | some e => GoResult.ok (some (PError.collab e))
      | none =>
        match env.sigVerify proofMsg.leaf.token.clientPublicKey
            (env.leafHashString proofMsg.leaf) proofMsg.leaf.signature with
        | some e => GoResult.ok (some (PError.collab e))
        | none => GoResult.ok none

/-!  ## The claim / invoice stores

The consensus key-value store is an abstract ordered map keyed by byte
strings; `KeyForClaim` / `KeyForInvoice` (types package, not under `src/`)
key the records by `(address, sessionHeader)` per the spec
(`claim/{address}/{sessionHeaderHash}`), so the stores are modelled as
association lists over that pair, `Set` overwriting any previous binding for
the key. -/

/-- A claim / invoice store key: `(address, sessionHeader)`. -/
def ClaimKey : Type := String × SessionHeader

instance : DecidableEq ClaimKey := by
  unfold ClaimKey
  infer_instance

/-- Lookup in an association-list store: the value bound to `k`, or `none`
(the store's `Get` returning `nil`). -/
def lookupKV {ν : Type} : List (ClaimKey × ν) → ClaimKey → Option ν
  | [], _ => none
  | (k', v) :: rest, k => if k' = k then some v else lookupKV rest k

/-- `store.Set`: bind `k` to `v`, overwriting any previous binding. -/
def setKV {ν : Type} (l : List (ClaimKey × ν)) (k : ClaimKey) (v : ν) : List (ClaimKey × ν) :=
  (k, v) :: l.filter (fun p => decide (¬ p.1 = k))

/-- `store.Delete`: remove every binding of `k`. -/
def deleteKV {ν : Type} (l : List (ClaimKey × ν)) (k : ClaimKey) : List (ClaimKey × ν) :=
  l.filter (fun p => decide (¬ p.1 = k))

/-- The consensus state touched by this keeper: the claim store (pending
commitments) and the invoice store (settled proofs). -/
structure PocketState where
  claims : List (ClaimKey × MsgClaim)
  invoices : List (ClaimKey × StoredInvoice)
deriving DecidableEq

/-- The zero value `pc.SessionHeader{}`. -/
def zeroSessionHeader : SessionHeader :=
  { chain := "", applicationPubKey := "", sessionBlockHeight := 0 }

/-- The zero value `pc.MsgClaim{}` returned by `GetClaim` on a miss. -/
def zeroMsgClaim : MsgClaim :=
  { fromAddress := "", sessionHeader := zeroSessionHeader, totalRelays := 0, merkleRoot := "" }

/-- `(k Keeper) SetClaim(ctx, msg)`: store the marshalled claim under
`KeyForClaim(ctx, msg.FromAddress, msg.SessionHeader)`. -/
def SetClaim (s : PocketState) (msg : MsgClaim) : PocketState :=
  { s with claims := setKV s.claims (msg.fromAddress, msg.sessionHeader) msg }

/-- `(k Keeper) GetClaim(ctx, address, header)`: returns the stored claim and
`true`, or `(pc.MsgClaim{}, false)` when the store holds nothing under the
key. -/
def GetClaim (s : PocketState) (address : String) (header : SessionHeader) :
    MsgClaim × Bool :=
  match lookupKV s.claims (address, header) with
  | some m => (m, true)
  | none => (zeroMsgClaim, false)

/-- `(k Keeper) DeleteClaim(ctx, address, header)`. -/
def DeleteClaim (s : PocketState) (address : String) (header : SessionHeader) : PocketState :=
  { s with claims := deleteKV s.claims (address, header) }

/-- `(k Keeper) GetInvoice(ctx, address, header)`, as an `Option` (`none`
models `found = false`). -/
def GetInvoice (s : PocketState) (address : String) (header : SessionHeader) :
    Option StoredInvoice :=
  lookupKV s.invoices (address, header)

/-- `(k Keeper) ClaimIsMature(ctx, sessionBlockHeight)`: true iff the current
block height has reached `ProofWaitingPeriod * SessionFrequency +
sessionBlockHeight`. -/
def ClaimIsMature (wp freq blockHeight sessionBlockHeight : Int) : Bool :=
  if wp * freq + sessionBlockHeight ≤ blockHeight then true else false

/-- `(k Keeper) DeleteExpiredClaims(ctx)`: iterate every stored claim and
delete those with `(ctx.BlockHeight() - msg.SessionBlockHeight) /
SessionFrequency >= ClaimExpiration`; Go's `/` on `int64` truncates toward
zero, which is `Int.tdiv`.  `blockHeight` is `ctx.BlockHeight()`. -/
def DeleteExpiredClaims (freq exp blockHeight : Int) (s : PocketState) : PocketState :=
  { s with claims := s.claims.filter (fun p =>
      decide (¬ exp ≤ Int.tdiv (blockHeight - p.2.sessionHeader.sessionBlockHeight) freq)) }

/-- `(k Keeper) GetMatureClaims(ctx, address)`: all claims stored under the
address prefix whose session block height has passed the waiting period. -/
def GetMatureClaims (wp freq blockHeight : Int) (s : PocketState) (address : String) :
    List MsgClaim :=
  (s.claims.filter (fun p =>
      decide (p.1.1 = address) &&
        ClaimIsMature wp freq blockHeight p.2.sessionHeader.sessionBlockHeight)).map
    Prod.snd

/-!  ## The proof-submission pass (`SendProofTx`)  -/

/-- The state visible to the submission scheduler: the consensus state plus
the process-local work cache (`pc.GetAllInvoices()`), keyed by session
header. -/
structure SchedState where
  chain : PocketState
  cache : List (SessionHeader × Invoice)
deriving DecidableEq

/-- One iteration of the `SendProofTx` loop over a mature claim `p`: if a
stored invoice exists for `(addr, p.SessionHeader)` the claim was already
settled, so the local cache entry and the claim-store entry are deleted and
nothing is submitted; otherwise the proof transaction for `p.SessionHeader`
is built from the local cache and submitted (the transaction builder and
broadcaster are external collaborators that mutate no engine state; a
successful submission is recorded in the second component). -/
def SendProofTxStep (addr : String) (acc : SchedState × List SessionHeader)
    (p : MsgClaim) : SchedState × List SessionHeader :=
  match lookupKV acc.1.chain.invoices (addr, p.sessionHeader) with
  | some _ =>
    ({ chain := DeleteClaim acc.1.chain addr p.sessionHeader,
       cache := acc.1.cache.filter (fun q => decide (¬ q.1 = p.sessionHeader)) }, acc.2)
  | none => (acc.1, acc.2 ++ [p.sessionHeader])

/-- `(k Keeper) SendProofTx(ctx, n, keybase, claimTx)`: materialize the
mature claims of the node's own address, then run the per-claim pass; the
returned list is the sequence of session headers for which a proof
transaction was submitted. -/
def SendProofTx (wp freq blockHeight : Int) (addr : String) (st : SchedState) :
    SchedState × List SessionHeader :=
  (GetMatureClaims wp freq blockHeight st.chain addr).foldl (SendProofTxStep addr) (st, [])

/-!  ## Concrete inputs used by witnesses and counterexamples  -/

/-- A digest whose 15 hex characters are all zero. -/
def zeroDigestFn : String → List Nat := fun _ => List.replicate 15 0

/-- A digest whose hex characters are `1` followed by fourteen `0`s. -/
def c1CexDigest : String → List Nat := fun _ => 1 :: List.replicate 14 0

/-- A constant (empty) block-hash accessor. -/
def constEmptyStrOfInt : Int → String := fun _ => ""

/-- A constant (empty) session-header hash accessor. -/
def constEmptyStrOfHeader : SessionHeader → String := fun _ => ""

/-- A concrete session header. -/
def hdrW : SessionHeader :=
  { chain := "eth", applicationPubKey := "apk", sessionBlockHeight := 0 }

/-- A concrete servicer address. -/
def addrW : String := "addr1"

/-- A concrete claim message over `hdrW` with one relay. -/
def claimW : MsgClaim :=
  { fromAddress := addrW, sessionHeader := hdrW, totalRelays := 1, merkleRoot := "root" }

/-- A concrete claim message over `hdrW` with two relays. -/
def claimW4 : MsgClaim :=
  { fromAddress := addrW, sessionHeader := hdrW, totalRelays := 2, merkleRoot := "root" }

/-- A concrete relay proof. -/
def leafW : RelayProof := { token := { clientPublicKey := "cpk" }, signature := "sig" }

/-- A concrete Merkle authentication path with leaf index `0` and no sibling
digests. -/
def mpW : MerkleProofObj := { index := 0, hashSums := [] }

/-- A concrete proof message with one Merkle proof. -/
def proofW : MsgProof := { merkleProofs := [mpW], leaf := leafW, cousin := leafW }

/-- A concrete proof message whose `MerkleProofs` slice is empty. -/
def proofW9 : MsgProof := { merkleProofs := [], leaf := leafW, cousin := leafW }

/-- A concrete collaborator environment in which every external check
succeeds and the digest is `zeroDigestFn`. -/
def envW : Env Unit :=
  { digest := zeroDigestFn
    blockHashAt := constEmptyStrOfInt
    headerHashString := constEmptyStrOfHeader
    wp := 1
    freq := 1
    merkleValidate := fun _ _ _ _ _ => true
    tokenValidate := fun _ => none
    sigVerify := fun _ _ _ => none
    leafHashString := fun _ => "" }

/-- The empty consensus state. -/
def emptyState : PocketState := { claims := [], invoices := [] }

/-- A session header that begins at height `100`, for the sweep witness. -/
def c6HdrW : SessionHeader :=
  { chain := "eth", applicationPubKey := "apk", sessionBlockHeight := 100 }

/-- A claim over `c6HdrW`. -/
def c6MsgW : MsgClaim :=
  { fromAddress := addrW, sessionHeader := c6HdrW, totalRelays := 4, merkleRoot := "root" }

/-- A consensus state holding exactly the claim `c6MsgW`. -/
def c6StoreW : PocketState :=
  { claims := [((addrW, c6HdrW), c6MsgW)], invoices := [] }

/-- A session header that begins at height `105`, used to exhibit the
floor-versus-truncation discrepancy of the expiration sweep. -/
def c6HdrCex : SessionHeader :=
  { chain := "eth", applicationPubKey := "apk", sessionBlockHeight := 105 }

/-- A claim over `c6HdrCex`. -/
def c6MsgCex : MsgClaim :=
  { fromAddress := addrW, sessionHeader := c6HdrCex, totalRelays := 4, merkleRoot := "root" }

/-- A consensus state holding exactly the claim `c6MsgCex`. -/
def c6StoreCex : PocketState :=
  { claims := [((addrW, c6HdrCex), c6MsgCex)], invoices := [] }

/-- A stored invoice settling `claimW`'s session, for the `SendProofTx`
witness. -/
def invW : StoredInvoice :=
  { servicerAddress := addrW, sessionHeader := hdrW, totalRelays := 1, proofs := [] }

/-- A local work-cache entry for `hdrW`. -/
def cacheEntryW : Invoice := { sessionHeader := hdrW, totalRelays := 1, proofs := [] }

/-- A scheduler state holding the claim `claimW`, a settling invoice for its
session, and a local cache entry for the same session. -/
def schedStW : SchedState :=
  { chain := { claims := [((addrW, hdrW), claimW)], invoices := [((addrW, hdrW), invW)] }
    cache := [(hdrW, cacheEntryW)] }

/-- A claim message with `totalRelays = 2^53 + 1`, the failing input of the
depth-check code bug. -/
def claimBig : MsgClaim :=
  { fromAddress := addrW, sessionHeader := hdrW, totalRelays := 2 ^ 53 + 1,
    merkleRoot := "root" }

/-- A Merkle authentication path of depth `53` with leaf index `0`. -/
def mpBig : MerkleProofObj := { index := 0, hashSums := List.replicate 53 "" }

/-- A proof message revealing a 53-level path. -/
def proofBig : MsgProof := { merkleProofs := [mpBig], leaf := leafW, cousin := leafW }

/-!  ## Supporting lemmas  -/

theorem foldlHex_ge (l : List Nat) :
    ∀ a : Int, 0 ≤ a → a ≤ l.foldl (fun (x : Int) (d : Nat) => 16 * x + (d : Int)) a := by
  induction l with
  | nil => intro a _; exact le_refl a
  | cons d l ih =>
    intro a ha
    have hd : (0 : Int) ≤ (d : Int) := Int.natCast_nonneg d
    have hstep : a ≤ 16 * a + (d : Int) := by linarith
    exact le_trans hstep (ih _ (by linarith))

theorem parseHex_nonneg (ds : List Nat) : 0 ≤ parseHex ds :=
  foldlHex_ge ds 0 (le_refl 0)

theorem parseHex_take_le (ds : List Nat) (s i : Nat) (h : s ≤ i) :
    parseHex (ds.take s) ≤ parseHex (ds.take i) := by
  have htt : (ds.take i).take s = ds.take s := by
    rw [List.take_take s i ds, min_eq_left h]
  have hsplit : (ds.take i).take s ++ (ds.take i).drop s = ds.take i :=
    List.take_append_drop s (ds.take i)
  have : parseHex (ds.take i) =
      ((ds.take i).drop s).foldl (fun (x : Int) (d : Nat) => 16 * x + (d : Int))
        (parseHex (ds.take s)) := by
    conv_lhs => rw [← hsplit]
    rw [htt]
    unfold parseHex
    exact List.foldl_append _ _ _ _
  rw [this]
  exact foldlHex_ge _ _ (parseHex_nonneg _)

theorem prIndexLoop_range (ph : List Nat) (tr : Int) (htr : 0 ≤ tr) :
    ∀ i : Nat, 0 ≤ prIndexLoop ph tr i ∧ prIndexLoop ph tr i ≤ tr := by
  intro i
  induction i with
  | zero => exact ⟨le_refl 0, htr⟩
  | succ i ih =>
    by_cases hc : parseHex (ph.take (i + 1)) ≤ tr
    · have hfc : 0 ≤ parseHex (ph.take 1) := parseHex_nonneg _
      have hipos : (0 : Int) < (i : Int) + 1 := by positivity
      have hmodlt : parseHex (ph.take 1) % ((i : Int) + 1) < (i : Int) + 1 :=
        Int.emod_lt_of_pos _ hipos
      have hmodge : 0 ≤ parseHex (ph.take 1) % ((i : Int) + 1) :=
        Int.emod_nonneg _ (ne_of_gt hipos)
      have hsel : (parseHex (ph.take 1) % ((i : Int) + 1) + 1).toNat ≤ i + 1 := by
        rw [Int.toNat_le]
        push_cast
        omega
      have hres : prIndexLoop ph tr (i + 1) =
          parseHex (ph.take (parseHex (ph.take 1) % ((i : Int) + 1) + 1).toNat) := by
        simp only [prIndexLoop, hc, if_pos]
      rw [hres]
      refine ⟨parseHex_nonneg _, le_trans (parseHex_take_le ph _ _ hsel) hc⟩
    · have hres : prIndexLoop ph tr (i + 1) = prIndexLoop ph tr i := by
        simp only [prIndexLoop, hc, if_neg, not_false_iff]
      rw [hres]
      exact ih

theorem ceilLog2Aux_eq_clog :
    ∀ (fuel n : Nat), n ≤ fuel → ceilLog2Aux fuel n = Nat.clog 2 n := by
  intro fuel
  induction fuel with
  | zero =>
    intro n hn
    have : n = 0 := Nat.le_zero.mp hn
    subst this
    simp [ceilLog2Aux, Nat.clog_of_right_le_one]
  | succ fuel ih =>
    intro n hn
    by_cases h1 : n ≤ 1
    · simp [ceilLog2Aux, h1, Nat.clog_of_right_le_one h1]
    · have h2 : 2 ≤ n := by omega
      have hrec : ceilLog2Aux (fuel + 1) n = ceilLog2Aux fuel ((n + 1) / 2) + 1 := by
        simp [ceilLog2Aux, h1]
      rw [hrec, Nat.clog_of_two_le (by norm_num) h2]
      have harg : (n + 2 - 1) / 2 = (n + 1) / 2 := by omega
      rw [harg]
      have hfuel : (n + 1) / 2 ≤ fuel := by omega
      rw [ih _ hfuel]

theorem ceilLog2Nat_eq_clog (n : Nat) : ceilLog2Nat n = Nat.clog 2 n :=
  ceilLog2Aux_eq_clog n n (le_refl n)

theorem validate_cons {E : Type} (env : Env E) (c : MsgClaim) (mp0 : MerkleProofObj)
    (rest : List MerkleProofObj) (leaf cousin : RelayProof) :
    ValidateProof env c ⟨mp0 :: rest, leaf, cousin⟩ =
      (if reqIndex env c ≠ mp0.index then GoResult.ok (some PError.invalidProofs)
       else if (mp0.hashSums.length : Int) ≠ ceilLog2 c.totalRelays then
         GoResult.ok (some PError.invalidProofs)
       else if ¬ (env.merkleValidate c.merkleRoot leaf cousin (mp0 :: rest) c.totalRelays = true) then
         GoResult.ok (some PError.invalidMerkleVerify)
       else
         match env.tokenValidate leaf.token with
         | some e => GoResult.ok (some (PError.collab e))
         | none =>
           match env.sigVerify leaf.token.clientPublicKey (env.leafHashString leaf)
               leaf.signature with
           | some e => GoResult.ok (some (PError.collab e))
           | none => GoResult.ok none) := rfl

theorem lookupKV_setKV {ν : Type} (l : List (ClaimKey × ν)) (k : ClaimKey) (v : ν) :
    lookupKV (setKV l k v) k = some v := by
  simp [setKV, lookupKV]

theorem lookupKV_eq_none_of_not_mem {ν : Type} (l : List (ClaimKey × ν)) (k : ClaimKey)
    (h : ∀ v, (k, v) ∉ l) : lookupKV l k = none := by
  induction l with
  | nil => rfl
  | cons p rest ih =>
    obtain ⟨k', v'⟩ := p
    have hk : ¬ k' = k := by
      intro he
      exact h v' (by rw [he]; exact List.mem_cons_self _ _)
    simp only [lookupKV, if_neg hk]
    exact ih (fun v hv => h v (List.mem_cons_of_mem _ hv))

theorem lookupKV_deleteKV {ν : Type} (l : List (ClaimKey × ν)) (k : ClaimKey) :
    lookupKV (deleteKV l k) k = none := by
  apply lookupKV_eq_none_of_not_mem
  intro v hv
  rw [deleteKV, List.mem_filter] at hv
  simp at hv

theorem foldl_preserves {α β : Type} (f : α → β → α) (R : α → Prop)
    (hf : ∀ a b, R a → R (f a b)) :
    ∀ (l : List β) (a : α), R a → R (l.foldl f a) := by
  intro l
  induction l with
  | nil => intro a h; exact h
  | cons x xs ih => intro a h; exact ih _ (hf a x h)

theorem sendStep_invoices (addr : String) (acc : SchedState × List SessionHeader)
    (p : MsgClaim) :
    (SendProofTxStep addr acc p).1.chain.invoices = acc.1.chain.invoices := by
  unfold SendProofTxStep
  split <;> rfl

theorem sendStep_claims_subset (addr : String) (acc : SchedState × List SessionHeader)
    (p : MsgClaim) (k : ClaimKey) (v : MsgClaim)
    (h : (k, v) ∈ (SendProofTxStep addr acc p).1.chain.claims) :
    (k, v) ∈ acc.1.chain.claims := by
  unfold SendProofTxStep at h
  split at h
  · simp only [DeleteClaim, deleteKV, List.mem_filter] at h
    exact h.1
  · exact h

theorem sendStep_cache_subset (addr : String) (acc : SchedState × List SessionHeader)
    (p : MsgClaim) (hd : SessionHeader) (e : Invoice)
    (h : (hd, e) ∈ (SendProofTxStep addr acc p).1.cache) :
    (hd, e) ∈ acc.1.cache := by
  unfold SendProofTxStep at h
  split at h
  · simp only [List.mem_filter] at h
    exact h.1
  · exact h

/-!  ## Claim theorems  -/

/-- C1 (amended): for every digest primitive, block state, governance
parameter setting and `totalRelays ≥ 1`, the index returned by
`GetPseudorandomIndex` satisfies `0 ≤ index ≤ totalRelays`.  The strict upper
bound of the original claim fails: the loop guarantees only
`index ≤ maxValue ≤ totalRelays`, and `index = totalRelays` is reachable
(see the counterexample). -/
theorem c1_pseudorandom_index_range (digest : String → List Nat)
    (blockHashAt : Int → String) (headerHashString : SessionHeader → String)
    (wp freq totalRelays : Int) (header : SessionHeader) (htr : 1 ≤ totalRelays) :
    0 ≤ GetPseudorandomIndex digest blockHashAt headerHashString wp freq totalRelays header ∧
      GetPseudorandomIndex digest blockHashAt headerHashString wp freq totalRelays header ≤
        totalRelays :=
  prIndexLoop_range _ totalRelays (le_trans zero_le_one htr) 15

/-- Witness for C1 (amended) at `totalRelays = 3` with the all-zero digest. -/
theorem c1_pseudorandom_index_range_witness :
    (1 : Int) ≤ 3 ∧
      (0 ≤ GetPseudorandomIndex zeroDigestFn constEmptyStrOfInt constEmptyStrOfHeader 0 0 3
          zeroSessionHeader ∧
        GetPseudorandomIndex zeroDigestFn constEmptyStrOfInt constEmptyStrOfHeader 0 0 3
          zeroSessionHeader ≤ 3) :=
  ⟨by decide, c1_pseudorandom_index_range zeroDigestFn constEmptyStrOfInt
    constEmptyStrOfHeader 0 0 3 zeroSessionHeader (by decide)⟩

/-- Counterexample to C1 as stated: with a digest whose first hex character
is `1` and `totalRelays = 1 ≥ 1`, the derivation selects `i = 1`,
`selection = 1`, and returns the index `1 = totalRelays`, violating
`index < totalRelays`. -/
theorem c1_range_counterexample :
    (1 : Int) ≤ 1 ∧
      ¬ GetPseudorandomIndex c1CexDigest constEmptyStrOfInt constEmptyStrOfHeader 0 0 1
          zeroSessionHeader < 1 := by
  decide

/-- C2: the index returned by `GetPseudorandomIndex` depends only on
`totalRelays` (given the governance parameters): because both fields of
`pseudorandomGenerator` are unexported, `json.Marshal` yields the constant
bytes of an empty JSON object, so two calls with the same `totalRelays` and
the same parameters agree even when the session headers and the block hashes
at the derived proof height differ. -/
theorem c2_index_depends_only_on_total_relays (digest : String → List Nat)
    (blockHashAt1 blockHashAt2 : Int → String)
    (headerHash1 headerHash2 : SessionHeader → String) (wp freq totalRelays : Int)
    (header1 header2 : SessionHeader) :
    GetPseudorandomIndex digest blockHashAt1 headerHash1 wp freq totalRelays header1 =
      GetPseudorandomIndex digest blockHashAt2 headerHash2 wp freq totalRelays header2 :=
  rfl

/-- C5: `ClaimIsMature` returns `true` exactly at the heights at or above
`sessionBlockHeight + proofWaitingPeriod * sessionFrequency` and `false`
strictly below that threshold. -/
theorem c5_claim_maturity_threshold (wp freq blockHeight sessionBlockHeight : Int) :
    (ClaimIsMature wp freq blockHeight sessionBlockHeight = true ↔
      sessionBlockHeight + wp * freq ≤ blockHeight) ∧
    (ClaimIsMature wp freq blockHeight sessionBlockHeight = false ↔
      blockHeight < sessionBlockHeight + wp * freq) := by
  unfold ClaimIsMature
  split_ifs with h
  · refine ⟨⟨fun _ => by linarith, fun _ => rfl⟩,
      ⟨fun hf => hf.elim, fun hlt => absurd (by linarith : ¬ wp * freq +
        sessionBlockHeight ≤ blockHeight) (not_not_intro h)⟩⟩
  · refine ⟨⟨fun hf => hf.elim,
      fun hle => absurd (by linarith : wp * freq + sessionBlockHeight ≤ blockHeight) h⟩,
      ⟨fun _ => by linarith [not_le.mp h], fun _ => rfl⟩⟩

/-- Counterexample to C6 as stated: at height `100`, with
`sessionFrequency = 10` and `claimExpirationSessions = 0`, the sweep deletes
a stored claim whose session block height is `105`, although
`floor((100 - 105) / 10) = -1 < 0`, so the claim's floor-division rule says
the claim must remain.  Go's `int64` division truncates toward zero, it does
not floor. -/
theorem c6_floor_counterexample :
    lookupKV (DeleteExpiredClaims 10 0 100 c6StoreCex).claims (addrW, c6HdrCex) = none ∧
      ¬ (0 : Int) ≤ Int.fdiv (100 - 105) 10 := by
  decide

/-- C6 (amended): after `DeleteExpiredClaims` runs at height `h` with
`sessionFrequency ≠ 0`, a stored claim is absent from the claim store iff its
truncated-toward-zero quotient `(h - sessionBlockHeight) / sessionFrequency`
(Go integer division, `Int.tdiv`; equal to the floor whenever
`h ≥ sessionBlockHeight`) is at least `claimExpirationSessions`; every other
claim remains unchanged and the invoice store is not modified. -/
theorem c6_sweep_characterization (freq exp blockHeight : Int) (s : PocketState)
    (hfreq : freq ≠ 0) :
    (∀ (k : ClaimKey) (m : MsgClaim),
      (k, m) ∈ (DeleteExpiredClaims freq exp blockHeight s).claims ↔
        ((k, m) ∈ s.claims ∧
          ¬ exp ≤ Int.tdiv (blockHeight - m.sessionHeader.sessionBlockHeight) freq)) ∧
    (DeleteExpiredClaims freq exp blockHeight s).invoices = s.invoices := by
  constructor
  · intro k m
    simp [DeleteExpiredClaims, List.mem_filter]
  · rfl

/-- Witness for C6 (amended): at height `150` a claim with session block
height `100`, `sessionFrequency = 10` and `claimExpirationSessions = 5` is
swept (`(150-100)/10 = 5 ≥ 5`). -/
theorem c6_sweep_characterization_witness :
    (10 : Int) ≠ 0 ∧
      ((∀ (k : ClaimKey) (m : MsgClaim),
        (k, m) ∈ (DeleteExpiredClaims 10 5 150 c6StoreW).claims ↔
          ((k, m) ∈ c6StoreW.claims ∧
            ¬ (5 : Int) ≤ Int.tdiv (150 - m.sessionHeader.sessionBlockHeight) 10)) ∧
      (DeleteExpiredClaims 10 5 150 c6StoreW).invoices = c6StoreW.invoices) :=
  ⟨by decide, c6_sweep_characterization 10 5 150 c6StoreW (by decide)⟩

/-- C7: `DeleteExpiredClaims` is idempotent — running the sweep twice at the
same height on the same store yields exactly the contents of running it
once. -/
theorem c7_sweep_idempotent (freq exp blockHeight : Int) (s : PocketState) :
    DeleteExpiredClaims freq exp blockHeight (DeleteExpiredClaims freq exp blockHeight s) =
      DeleteExpiredClaims freq exp blockHeight s := by
  cases s with
  | mk cl inv =>
    simp [DeleteExpiredClaims, List.filter_filter]

/-- C10: `SetClaim` followed by `GetClaim` at the claim's own key returns the
stored message with `found = true`; `GetClaim` at a key never set, or at a
key just removed by `DeleteClaim`, returns the zero `MsgClaim` with
`found = false`. -/
theorem c10_claim_roundtrip (s s2 : PocketState) (msg : MsgClaim) (address : String)
    (header : SessionHeader)
    (hnever : ∀ v : MsgClaim, ((address, header), v) ∉ s2.claims) :
    GetClaim (SetClaim s msg) msg.fromAddress msg.sessionHeader = (msg, true) ∧
    GetClaim s2 address header = (zeroMsgClaim, false) ∧
    (∀ s3 : PocketState, GetClaim (DeleteClaim s3 address header) address header =
      (zeroMsgClaim, false)) := by
  refine ⟨?_, ?_, ?_⟩
  · unfold GetClaim SetClaim
    rw [lookupKV_setKV]
  · unfold GetClaim
    rw [lookupKV_eq_none_of_not_mem s2.claims (address, header) hnever]
  · intro s3
    unfold GetClaim DeleteClaim
    rw [lookupKV_deleteKV]

/-- Witness for C10 on the empty store with the concrete claim `claimW`. -/
theorem c10_claim_roundtrip_witness :
    (∀ v : MsgClaim, ((addrW, hdrW), v) ∉ emptyState.claims) ∧
      (GetClaim (SetClaim emptyState claimW) claimW.fromAddress claimW.sessionHeader =
        (claimW, true) ∧
      GetClaim emptyState addrW hdrW = (zeroMsgClaim, false) ∧
      (∀ s3 : PocketState, GetClaim (DeleteClaim s3 addrW hdrW) addrW hdrW =
        (zeroMsgClaim, false))) :=
  ⟨fun v hv => by simp [emptyState] at hv,
   c10_claim_roundtrip emptyState emptyState claimW addrW hdrW
     (fun v hv => by simp [emptyState] at hv)⟩

/-- C3 (code bug at the failing input `totalRelays = 2^53 + 1`): the
`float64` conversion inside the code's depth computation already rounds
`2^53 + 1` to the exact power `2^53` (ties-to-even), where the ceiling log —
and Go's `Log2`, which special-cases exact powers — is `53`, although the
exact ceiling at `2^53 + 1` itself is `54`.  The code therefore compares the
revealed depth against `53` and returns `nil` for a 53-level path whose
depth differs from `ceil(log2(totalRelays)) = 54`, falsifying the claimed
iff on the code; check (2) of the claim and spec §4.2 describe the intended
exact threshold. -/
theorem c3_float_depth_failing_input :
    float64RoundInt (2 ^ 53 + 1) = 2 ^ 53 ∧ ceilLog2Nat (2 ^ 53) = 53 ∧
      ceilLog2 (2 ^ 53 + 1) = 54 := by
  decide

/-- C4 (code bug at the failing input `totalRelays = 2^53 + 1`): the
intended behavior — the depth check against the exact
`ceil(log2(totalRelays)) = 54` — rejects a 53-level path with
`InvalidProofsError`, as this evaluation of the exact-threshold embedding
shows; the running code instead computes its threshold from
`float64(2^53 + 1) = 2^53` and lets the 53-level path pass the depth check,
so the claimed unconditional rejection for every `totalRelays ≥ 2` fails on
the code. -/
theorem c4_exact_depth_rejects_failing_input :
    mpBig.hashSums.length = 53 ∧ ceilLog2 claimBig.totalRelays = 54 ∧
      ValidateProof envW claimBig proofBig = GoResult.ok (some PError.invalidProofs) ∧
      float64RoundInt (2 ^ 53 + 1) = 2 ^ 53 := by
  decide

/-- C9: `ValidateProof` indexes `MerkleProofs[0]` without a length check — on
an empty `MerkleProofs` slice the very first check performs an out-of-bounds
access (a panic in Go), and whenever the slice is non-empty the function is
total and returns an ordinary result. -/
theorem c9_validate_oob_on_empty_proofs {E : Type} (env : Env E) (c : MsgClaim)
    (p : MsgProof) :
    (p.merkleProofs = [] → ValidateProof env c p = GoResult.panic) ∧
    (∀ (mp0 : MerkleProofObj) (rest : List MerkleProofObj), p.merkleProofs = mp0 :: rest →
      ∃ r, ValidateProof env c p = GoResult.ok r) := by
  constructor
  · intro h
    obtain ⟨mps, lf, cs⟩ := p
    change mps = [] at h
    subst h
    rfl
  · intro mp0 rest h
    obtain ⟨mps, lf, cs⟩ := p
    change mps = mp0 :: rest at h
    subst h
    rw [validate_cons]
    by_cases h1 : reqIndex env c = mp0.index
    · by_cases h2 : (mp0.hashSums.length : Int) = ceilLog2 c.totalRelays
      · by_cases h3 : env.merkleValidate c.merkleRoot lf cs (mp0 :: rest) c.totalRelays = true
        · cases htok : env.tokenValidate lf.token with
          | some e =>
            refine ⟨some (PError.collab e), ?_⟩
            simp [h1, h2, h3, htok]
          | none =>
            cases hsig : env.sigVerify lf.token.clientPublicKey (env.leafHashString lf)
                lf.signature with
            | some e =>
              refine ⟨some (PError.collab e), ?_⟩
              simp [h1, h2, h3, htok, hsig]
            | none =>
              refine ⟨none, ?_⟩
              simp [h1, h2, h3, htok, hsig]
        · refine ⟨some PError.invalidMerkleVerify, ?_⟩
          simp [h1, h2, h3]
      · refine ⟨some PError.invalidProofs, ?_⟩
        simp [h1, h2]
    · refine ⟨some PError.invalidProofs, ?_⟩
      simp [h1]

/-- Witness for C9: the concrete empty-slice proof message panics, a
one-element one does not. -/
theorem c9_validate_oob_on_empty_proofs_witness :
    ValidateProof envW claimW proofW9 = GoResult.panic ∧
      ∃ r, ValidateProof envW claimW proofW = GoResult.ok r :=
  ⟨(c9_validate_oob_on_empty_proofs envW claimW proofW9).1 rfl,
   (c9_validate_oob_on_empty_proofs envW claimW proofW).2 mpW [] rfl⟩

/-- C8: during `SendProofTx`, every mature claim of the node's own address
for which a stored invoice already exists for the same session header has its
local cache entry and its claim-store entry deleted, and no proof transaction
is submitted for that session. -/
theorem c8_settled_claim_reclaimed (wp freq blockHeight : Int) (addr : String)
    (st : SchedState) (header : SessionHeader) (m : MsgClaim) (inv : StoredInvoice)
    (hm : ((addr, header), m) ∈ st.chain.claims)
    (hmh : m.sessionHeader = header)
    (hmat : ClaimIsMature wp freq blockHeight header.sessionBlockHeight = true)
    (hinv : lookupKV st.chain.invoices (addr, header) = some inv) :
    (∀ v : MsgClaim,
      ((addr, header), v) ∉ (SendProofTx wp freq blockHeight addr st).1.chain.claims) ∧
    (∀ e : Invoice, (header, e) ∉ (SendProofTx wp freq blockHeight addr st).1.cache) ∧
    header ∉ (SendProofTx wp freq blockHeight addr st).2 := by
  have hmem : m ∈ GetMatureClaims wp freq blockHeight st.chain addr := by
    unfold GetMatureClaims
    refine List.mem_map.mpr ⟨((addr, header), m), List.mem_filter.mpr ⟨hm, ?_⟩, rfl⟩
    simp [hmh, hmat]
  obtain ⟨l1, l2, hsplit⟩ := List.append_of_mem hmem
  have hP : ∀ (acc : SchedState × List SessionHeader) (q : MsgClaim),
      (acc.1.chain.invoices = st.chain.invoices ∧ header ∉ acc.2) →
      ((SendProofTxStep addr acc q).1.chain.invoices = st.chain.invoices ∧
        header ∉ (SendProofTxStep addr acc q).2) := by
    intro acc q hPa
    refine ⟨by rw [sendStep_invoices]; exact hPa.1, ?_⟩
    unfold SendProofTxStep
    split
    · exact hPa.2
    · next heq =>
      intro hmem2
      rcases List.mem_append.mp hmem2 with hin | hin
      · exact hPa.2 hin
      · have hhd : header = q.sessionHeader := by simpa using hin
        rw [hPa.1, ← hhd, hinv] at heq
        cases heq
  have hQ : ∀ (acc : SchedState × List SessionHeader) (q : MsgClaim),
      ((∀ v : MsgClaim, ((addr, header), v) ∉ acc.1.chain.claims) ∧
        (∀ e : Invoice, (header, e) ∉ acc.1.cache)) →
      ((∀ v : MsgClaim, ((addr, header), v) ∉ (SendProofTxStep addr acc q).1.chain.claims) ∧
        (∀ e : Invoice, (header, e) ∉ (SendProofTxStep addr acc q).1.cache)) := by
    intro acc q hQa
    exact ⟨fun v hv => hQa.1 v (sendStep_claims_subset addr acc q _ v hv),
           fun e he => hQa.2 e (sendStep_cache_subset addr acc q header e he)⟩
  have hQm : ∀ acc : SchedState × List SessionHeader,
      acc.1.chain.invoices = st.chain.invoices →
      ((∀ v : MsgClaim, ((addr, header), v) ∉ (SendProofTxStep addr acc m).1.chain.claims) ∧
        (∀ e : Invoice, (header, e) ∉ (SendProofTxStep addr acc m).1.cache)) := by
    intro acc haccinv
    unfold SendProofTxStep
    rw [hmh, haccinv, hinv]
    constructor
    · intro v hv
      simp only [DeleteClaim, deleteKV, List.mem_filter, decide_eq_true_eq] at hv
      exact hv.2 trivial
    · intro e he
      simp only [List.mem_filter, decide_eq_true_eq] at he
      exact he.2 trivial
  have hfoldP : ∀ (l : List MsgClaim) (acc : SchedState × List SessionHeader),
      (acc.1.chain.invoices = st.chain.invoices ∧ header ∉ acc.2) →
      ((l.foldl (SendProofTxStep addr) acc).1.chain.invoices = st.chain.invoices ∧
        header ∉ (l.foldl (SendProofTxStep addr) acc).2) :=
    fun l => foldl_preserves (SendProofTxStep addr)
      (fun acc => acc.1.chain.invoices = st.chain.invoices ∧ header ∉ acc.2) hP l
  have hfoldPQ : ∀ (l : List MsgClaim) (acc : SchedState × List SessionHeader),
      ((acc.1.chain.invoices = st.chain.invoices ∧ header ∉ acc.2) ∧
        ((∀ v : MsgClaim, ((addr, header), v) ∉ acc.1.chain.claims) ∧
          (∀ e : Invoice, (header, e) ∉ acc.1.cache))) →
      (((l.foldl (SendProofTxStep addr) acc).1.chain.invoices = st.chain.invoices ∧
          header ∉ (l.foldl (SendProofTxStep addr) acc).2) ∧
        ((∀ v : MsgClaim,
            ((addr, header), v) ∉ (l.foldl (SendProofTxStep addr) acc).1.chain.claims) ∧
          (∀ e : Invoice, (header, e) ∉ (l.foldl (SendProofTxStep addr) acc).1.cache))) :=
    fun l => foldl_preserves (SendProofTxStep addr) _
      (fun a b hab => ⟨hP a b hab.1, hQ a b hab.2⟩) l
  unfold SendProofTx
  rw [hsplit, List.foldl_append, List.foldl_cons]
  have h1 := hfoldP l1 (st, []) ⟨rfl, by simp⟩
  have h2 := hP _ m h1
  have h3 := hQm _ h1.1
  have hfin := hfoldPQ l2 _ ⟨h2, h3⟩
  exact ⟨hfin.2.1, hfin.2.2, hfin.1.2⟩

/-- Witness for C8: a store with one mature claim over `hdrW`, a settling
invoice for the same session, and a local cache entry for it. -/
theorem c8_settled_claim_reclaimed_witness :
    ((addrW, hdrW), claimW) ∈ schedStW.chain.claims ∧
      claimW.sessionHeader = hdrW ∧
      ClaimIsMature 1 1 10 hdrW.sessionBlockHeight = true ∧
      lookupKV schedStW.chain.invoices (addrW, hdrW) = some invW ∧
      ((∀ v : MsgClaim,
          ((addrW, hdrW), v) ∉ (SendProofTx 1 1 10 addrW schedStW).1.chain.claims) ∧
        (∀ e : Invoice, (hdrW, e) ∉ (SendProofTx 1 1 10 addrW schedStW).1.cache) ∧
        hdrW ∉ (SendProofTx 1 1 10 addrW schedStW).2) :=
  ⟨by simp [schedStW], rfl, by decide, by decide,
   c8_settled_claim_reclaimed 1 1 10 addrW schedStW hdrW claimW invW
     (by simp [schedStW]) rfl (by decide) (by decide)⟩

end Pocket
